import Mathlib

/-!
Shallow embedding of the payments service in `src/app.js`: profiles,
contracts and jobs stored in lists, with the four core operations
(pay a job, deposit, best profession, best clients) translated from the
route handlers.  Money amounts are modelled as rationals (the JS numbers),
dates as integer timestamps, and the SQL queries as list traversals.
-/

/-- A row of the `Profiles` table: id, type (`"client"` or `"contractor"`),
names, profession and balance (app.js reads `id`, `type`, `firstName`,
`lastName`, `profession`, `balance`). -/
structure Profile where
  id : Nat
  type : String
  firstName : String
  lastName : String
  profession : String
  balance : ℚ
deriving DecidableEq, Repr

/-- A row of the `Contracts` table: id, status (`"new"`, `"in_progress"`,
`"terminated"`), and the two foreign keys `ClientId`, `ContractorId`. -/
structure Contract where
  id : Nat
  status : String
  ClientId : Nat
  ContractorId : Nat
deriving DecidableEq, Repr

/-- A row of the `Jobs` table: id, price, paid flag, optional payment
timestamp, and foreign key `ContractId`. -/
structure Job where
  id : Nat
  price : ℚ
  paid : Bool
  paymentDate : Option Int
  ContractId : Nat
deriving DecidableEq, Repr

/-- The database state: the three tables. -/
structure DB where
  profiles : List Profile
  contracts : List Contract
  jobs : List Job
deriving DecidableEq, Repr

/-- The error objects thrown by the route handlers
(`throw { code, message }` in app.js) and the non-2xx responses
(`res.status(code).end(message)`). -/
structure ErrObj where
  code : Nat
  message : String
deriving DecidableEq, Repr

/-- The `Job.findOne` predicate of `POST /jobs/:job_id/pay`
(app.js lines 91-119): the job has the requested id, is not paid, its
contract is `in_progress` with `ClientId = profileId`, and the contract's
`Client` profile (join on `id = profileId`) exists. -/
def paysFor (db : DB) (profileId jobId : Nat) (j : Job) : Bool :=
  j.id == jobId && j.paid == false &&
    db.contracts.any (fun c =>
      c.id == j.ContractId && c.status == "in_progress" &&
        c.ClientId == profileId &&
        db.profiles.any (fun p => p.id == profileId))

/-- `Job.findOne` with its `Contract` and `Client` includes
(app.js lines 91-119): returns the first matching job together with the
joined contract row and client profile row. -/
def findUnpaidJobToPay (db : DB) (profileId jobId : Nat) :
    Option (Job × Contract × Profile) :=
  match db.jobs.find? (fun j => paysFor db profileId jobId j) with
  | none => none
  | some j =>
    match db.contracts.find? (fun c =>
      c.id == j.ContractId && c.status == "in_progress" && c.ClientId == profileId) with
    | none => none
    | some c =>
      match db.profiles.find? (fun p => p.id == profileId) with
      | none => none
      | some p => some (j, c, p)

/-- `Profile.decrement({balance: amount}, {where: {id, balance: {gte: amount}}})`
(app.js lines 135-148): the guarded conditional update.  Returns the number
of affected rows (the zero-rows-affected signal) and the new table state. -/
def decrementGuarded (db : DB) (i : Nat) (amount : ℚ) : Nat × DB :=
  ((db.profiles.filter (fun p => p.id == i && decide (amount ≤ p.balance))).length,
   { db with profiles := db.profiles.map (fun p =>
      if p.id == i && decide (amount ≤ p.balance)
        then { p with balance := p.balance - amount } else p) })

/-- `Profile.increment({balance: amount}, {where: {id}})`
(app.js lines 155-165, and the instance-level `req.profile.increment` of the
deposit route at lines 222-229, whose `WHERE` is the instance's primary key).
Returns the affected-row count and the new table state. -/
def incrementProfile (db : DB) (i : Nat) (amount : ℚ) : Nat × DB :=
  ((db.profiles.filter (fun p => p.id == i)).length,
   { db with profiles := db.profiles.map (fun p =>
      if p.id == i then { p with balance := p.balance + amount } else p) })

/-- `unpaidJobToPay.paid = true; unpaidJobToPay.paymentDate = new Date();
await unpaidJobToPay.save(...)` (app.js lines 173-175): the `UPDATE` by the
job's primary key. -/
def saveJobPaid (db : DB) (jobId : Nat) (now : Int) : DB :=
  { db with jobs := db.jobs.map (fun j =>
      if j.id == jobId then { j with paid := true, paymentDate := some now } else j) }

/-- The body of the `sequelize.transaction` callback of
`POST /jobs/:job_id/pay` (app.js lines 90-177): find the unpaid job, check
the client's balance, guarded decrement, contractor increment, mark paid,
reload.  A thrown error object aborts with `.error`. -/
def payJobBody (db : DB) (profileId jobId : Nat) (now : Int) :
    Except ErrObj (DB × Job) :=
  match findUnpaidJobToPay db profileId jobId with
  | none => .error ⟨404, "Job not found"⟩
  | some (j, c, client) =>
    if client.balance < j.price then .error ⟨409, "Balance is not sufficient"⟩
    else
      let r1 := decrementGuarded db c.ClientId j.price
      if r1.1 == 0 then .error ⟨409, "Balance is not sufficient"⟩
      else
        let r2 := incrementProfile r1.2 c.ContractorId j.price
        if r2.1 == 0 then .error ⟨500, "Error updating contractor"⟩
        else
          let db3 := saveJobPaid r2.2 j.id now
          -- `unpaidJobToPay.reload(...)`: re-read the row by primary key
          -- (cannot fail here, the row was just saved).
          match db3.jobs.find? (fun x => x.id == j.id) with
          | none => .error ⟨500, "Unknown error"⟩
          | some j2 => .ok (db3, j2)

/-- `POST /jobs/:job_id/pay` (app.js lines 81-184): the role check, then the
transaction.  On a thrown error the transaction rolls back, so the route
returns the error response together with the unchanged database. -/
def payJob (db : DB) (caller : Profile) (jobId : Nat) (now : Int) :
    Except ErrObj Job × DB :=
  if caller.type ≠ "client" then
    (.error ⟨403, "Only clients can pay for jobs"⟩, db)
  else
    match payJobBody db caller.id jobId now with
    | .ok (db2, j) => (.ok j, db2)
    | .error e => (.error e, db)

/-- The rows of the `Job.sum('price', ...)` join of `POST /balances/deposit`
(app.js lines 196-213): one price per (unpaid job, matching contract) pair of
the required `Contract` include with `status: in_progress, ClientId`. -/
def exposureRows (db : DB) (profileId : Nat) : List ℚ :=
  (db.jobs.filter (fun j => j.paid == false)).flatMap (fun j =>
    (db.contracts.filter (fun c =>
      c.id == j.ContractId && c.status == "in_progress" &&
        c.ClientId == profileId)).map (fun _ => j.price))

/-- `unpaidJobsPriceSum` (app.js line 196): `SUM(price)` over the join;
`null` (no rows) coerces to 0 in the JS comparison `amount > sum / 4`. -/
def exposure (db : DB) (profileId : Nat) : ℚ :=
  (exposureRows db profileId).sum

/-- `POST /balances/deposit` (app.js lines 186-240): role check, the
25%-of-exposure limit check (`depositAmount > unpaidJobsPriceSum / 4`),
then the unconditional `req.profile.increment` and `reload`.  There is no
validation of the amount itself. -/
def deposit (db : DB) (caller : Profile) (amount : ℚ) :
    Except ErrObj Profile × DB :=
  if caller.type ≠ "client" then
    (.error ⟨403, "Only clients can deposit money"⟩, db)
  else if amount > exposure db caller.id / 4 then
    (.error ⟨409, "You can only deposit up to 25% of total unpaid jobs amount"⟩, db)
  else
    let db2 := (incrementProfile db caller.id amount).2
    match db2.profiles.find? (fun p => p.id == caller.id) with
    | some p => (.ok p, db2)
    | none => (.error ⟨500, "Unknown error"⟩, db)

/-- The `paymentDate` filter of the admin routes
(app.js lines 245-255 and 289-299): `paid: true`, plus `paymentDate >= start`
when a start is given and `paymentDate <= end` when an end is given
(a `NULL` payment date never satisfies a bound, as in SQL). -/
def inRange (startQ endQ : Option Int) (pd : Option Int) : Bool :=
  (match startQ with
   | none => true
   | some s => match pd with | none => false | some d => decide (s ≤ d)) &&
  (match endQ with
   | none => true
   | some e => match pd with | none => false | some d => decide (d ≤ e))

/-- The join rows of `GET /admin/best-profession` (app.js lines 256-278):
paid jobs in the date range, each joined (required includes) with its
contract and the contract's `Contractor` profile. -/
def contractorRows (db : DB) (s e : Option Int) : List (Job × Contract × Profile) :=
  (db.jobs.filter (fun j => j.paid == true && inRange s e j.paymentDate)).flatMap
    (fun j => (db.contracts.filter (fun c => c.id == j.ContractId)).flatMap
      (fun c => (db.profiles.filter (fun p => p.id == c.ContractorId)).map
        (fun p => (j, c, p))))

/-- The `GROUP BY Contract.Contractor.profession` with `SUM(price)` of
`GET /admin/best-profession` (app.js lines 256-278): one `(profession, sum)`
entry per distinct profession among the join rows. -/
def professionTotals (db : DB) (s e : Option Int) : List (String × ℚ) :=
  let rows := contractorRows db s e
  ((rows.map (fun r => r.2.2.profession)).dedup).map (fun pr =>
    (pr, ((rows.filter (fun r => r.2.2.profession == pr)).map (fun r => r.1.price)).sum))

/-- `ORDER BY SUM(price) DESC` with `findOne`'s `LIMIT 1`
(app.js lines 256-258): the group with the maximal sum (first such group on
a tie, matching an arbitrary SQL tie-break). -/
def pickMax : List (String × ℚ) → Option (String × ℚ)
  | [] => none
  | x :: xs =>
    match pickMax xs with
    | none => some x
    | some y => some (if x.2 < y.2 then y else x)

/-- `GET /admin/best-profession` (app.js lines 242-284): the profession of
the top group, or `none` (the 404 response) when no row matches. -/
def bestProfession (db : DB) (s e : Option Int) : Option String :=
  (pickMax (professionTotals db s e)).map (fun g => g.1)

/-- The JSON body sent by `GET /admin/best-profession`: the `attributes`
option (app.js lines 259-261) selects only
`Contract.Contractor.profession AS profession`, so the serialized record has
exactly one field. -/
def bestProfessionResponse (db : DB) (s e : Option Int) :
    Option (List (String × String)) :=
  (bestProfession db s e).map (fun pr => [("profession", pr)])

/-- One entry of the `GET /admin/best-clients` result (app.js lines 303-315):
`Contract.Client.id AS id`, `CONCAT(firstName, ' ', lastName) AS fullName`,
`SUM(price) AS paid`. -/
structure BCEntry where
  id : Nat
  fullName : String
  paid : ℚ
deriving DecidableEq, Repr

/-- The join rows of `GET /admin/best-clients` (app.js lines 300-332):
paid jobs in the date range joined with their contract and the contract's
`Client` profile. -/
def clientRows (db : DB) (s e : Option Int) : List (Job × Contract × Profile) :=
  (db.jobs.filter (fun j => j.paid == true && inRange s e j.paymentDate)).flatMap
    (fun j => (db.contracts.filter (fun c => c.id == j.ContractId)).flatMap
      (fun c => (db.profiles.filter (fun p => p.id == c.ClientId)).map
        (fun p => (j, c, p))))

/-- The `GROUP BY Contract.Client.id` aggregation of `GET /admin/best-clients`
(app.js lines 300-315): per distinct client id, the client's full name (from
a representative row of the group) and the summed price. -/
def clientTotals (db : DB) (s e : Option Int) : List BCEntry :=
  let rows := clientRows db s e
  ((rows.map (fun r => r.2.2.id)).dedup).filterMap (fun i =>
    (rows.find? (fun r => r.2.2.id == i)).map (fun r0 =>
      { id := i,
        fullName := r0.2.2.firstName ++ " " ++ r0.2.2.lastName,
        paid := ((rows.filter (fun r => r.2.2.id == i)).map (fun r => r.1.price)).sum }))

/-- Ascending insertion by the group key: SQLite evaluates the
`GROUP BY Contract.Client.id` of app.js line 301 through a temporary b-tree
keyed on the group key, so the grouped rows are emitted in ascending client
id order. -/
def insertByClientId (x : BCEntry) : List BCEntry → List BCEntry
  | [] => [x]
  | y :: ys => if x.id < y.id then x :: y :: ys else y :: insertByClientId x ys

/-- The group-key order in which the grouped rows are produced. -/
def groupOrder (l : List BCEntry) : List BCEntry :=
  l.foldr insertByClientId []

/-- The `order: [['paid', 'DESC']]` of app.js line 302: the plain string is
resolved against the Job model's attributes and qualified as the boolean
column `Job`.`paid` — not the `SUM(price) AS paid` alias of line 314 (an
aliased aggregate would need `fn`/`literal`).  The `paid: true` filter fixes
that column at 1 on every row, so the sort key is constant across groups and
the ORDER BY leaves the group-key order unchanged. -/
def orderByPaidColumnDesc (l : List BCEntry) : List BCEntry :=
  l

/-- The `limit: parseInt(limit)` option (app.js line 332): SQL `LIMIT n`
keeps the first `n` rows; a negative `LIMIT` means no limit in SQLite. -/
def applyLimit (n : Int) (l : List BCEntry) : List BCEntry :=
  if n < 0 then l else l.take n.toNat

/-- The `Job.findAll` of `GET /admin/best-clients` (app.js lines 300-333):
group (rows emitted in group-key order), apply the constant-key ORDER BY,
truncate to the limit. -/
def bestClients (db : DB) (s e : Option Int) (lim : Int) : List BCEntry :=
  applyLimit lim (orderByPaidColumnDesc (groupOrder (clientTotals db s e)))

/-- `GET /admin/best-clients` (app.js lines 286-339): `limit` defaults to 2
when the query parameter is absent (`const { ..., limit = 2 } = req.query`).
`findAll` returns an array (never `null`), so the `!topClients` 404 branch
at line 335 is unreachable and the route always responds with the list. -/
def bestClientsRoute (db : DB) (s e : Option Int) (limq : Option Int) :
    Except ErrObj (List BCEntry) :=
  .ok (bestClients db s e (limq.getD 2))

/-- The profile row a `SELECT ... WHERE id = i` sees: the first row of the
table with that id. -/
def findProfile (db : DB) (i : Nat) : Option Profile :=
  db.profiles.find? (fun p => p.id == i)

section Helpers

/-- `find?` by a key commutes with mapping a key-preserving update over the
list. -/
theorem find?_key_map {α : Type} (key : α → Nat) (l : List α) (g : α → α)
    (hg : ∀ x, key (g x) = key x) (t : Nat) :
    (l.map g).find? (fun x => key x == t)
      = (l.find? (fun x => key x == t)).map g := by
  induction l with
  | nil => rfl
  | cons a l ih =>
    simp only [List.map_cons]
    cases h : (key a == t) with
    | true =>
      rw [List.find?_cons_of_pos (p := fun x => key x == t) _ (by simpa [hg] using h),
        List.find?_cons_of_pos (p := fun x => key x == t) _ h]
      rfl
    | false =>
      rw [List.find?_cons_of_neg (p := fun x => key x == t) _ (by simpa [hg] using h),
        List.find?_cons_of_neg (p := fun x => key x == t) _ (by simpa using h), ih]

/-- The profiles table after the guarded decrement followed by the
contractor increment, as a single mapped update. -/
theorem profiles_after_transfer (db : DB) (cid ctrid : Nat) (price : ℚ) :
    ((incrementProfile (decrementGuarded db cid price).2 ctrid price).2).profiles
      = db.profiles.map (fun p =>
          (fun q => if q.id == ctrid then { q with balance := q.balance + price } else q)
            ((fun q => if q.id == cid && decide (price ≤ q.balance)
              then { q with balance := q.balance - price } else q) p)) := by
  simp [incrementProfile, decrementGuarded, List.map_map, Function.comp_def]

/-- `saveJobPaid` does not touch the profiles table. -/
theorem saveJobPaid_profiles (db : DB) (jid : Nat) (now : Int) :
    (saveJobPaid db jid now).profiles = db.profiles := rfl

/-- The two balance updates do not touch the jobs table. -/
theorem transfer_jobs (db : DB) (cid ctrid : Nat) (price : ℚ) :
    ((incrementProfile (decrementGuarded db cid price).2 ctrid price).2).jobs
      = db.jobs := rfl

/-- The two balance updates do not touch the contracts table. -/
theorem transfer_contracts (db : DB) (cid ctrid : Nat) (price : ℚ) :
    ((incrementProfile (decrementGuarded db cid price).2 ctrid price).2).contracts
      = db.contracts := rfl

end Helpers

/-- Inversion of the `Job.findOne` lookup: a found row determines the three
underlying `find?` results. -/
theorem findUnpaidJobToPay_eq_some {db : DB} {pid jid : Nat}
    {j : Job} {c : Contract} {p : Profile}
    (h : findUnpaidJobToPay db pid jid = some (j, c, p)) :
    db.jobs.find? (fun x => paysFor db pid jid x) = some j ∧
    db.contracts.find? (fun c2 => c2.id == j.ContractId &&
      c2.status == "in_progress" && c2.ClientId == pid) = some c ∧
    db.profiles.find? (fun q => q.id == pid) = some p := by
  rw [findUnpaidJobToPay] at h
  split at h
  · exact absurd h (by simp)
  · rename_i j1 hj1
    split at h
    · exact absurd h (by simp)
    · rename_i c1 hc1
      split at h
      · exact absurd h (by simp)
      · rename_i p1 hp1
        obtain ⟨rfl, rfl, rfl⟩ : j1 = j ∧ c1 = c ∧ p1 = p := by
          simpa using h
        exact ⟨hj1, hc1, hp1⟩

/-- Inversion of a successful `POST /jobs/:job_id/pay`: the caller is a
client, a matching unpaid job was found with the client's balance covering
the price, and the final state is the decrement, increment and job update
applied in order, with the response being the reloaded job row. -/
theorem payJob_ok_core {db : DB} {caller : Profile} {jid : Nat} {now : Int}
    {j : Job} {db' : DB}
    (hok : payJob db caller jid now = (.ok j, db')) :
    caller.type = "client" ∧
    ∃ j0 c p,
      db.jobs.find? (fun x => paysFor db caller.id jid x) = some j0 ∧
      db.contracts.find? (fun c2 => c2.id == j0.ContractId &&
        c2.status == "in_progress" && c2.ClientId == caller.id) = some c ∧
      findProfile db caller.id = some p ∧
      j0.price ≤ p.balance ∧
      db' = saveJobPaid
        (incrementProfile (decrementGuarded db c.ClientId j0.price).2
          c.ContractorId j0.price).2 j0.id now ∧
      (incrementProfile (decrementGuarded db c.ClientId j0.price).2
        c.ContractorId j0.price).1 ≠ 0 ∧
      db'.jobs.find? (fun x => x.id == j0.id) = some j := by
  by_cases ht : caller.type = "client"
  · refine ⟨ht, ?_⟩
    rw [payJob, if_neg (by simp [ht])] at hok
    cases hb : payJobBody db caller.id jid now with
    | error e => rw [hb] at hok; exact absurd hok (by simp)
    | ok out =>
      obtain ⟨db2, j2⟩ := out
      rw [hb] at hok
      obtain ⟨hj, hdb⟩ : (Except.ok j2 : Except ErrObj Job) = Except.ok j ∧ db2 = db' := by
        simpa using hok
      obtain rfl : j2 = j := by simpa using hj
      subst hdb
      rw [payJobBody] at hb
      split at hb
      · exact absurd hb (by simp)
      · rename_i t j0 c p hf
        split at hb
        · exact absurd hb (by simp)
        · rename_i h1
          simp only [] at hb
          split at hb
          · exact absurd hb (by simp)
          · rename_i h2
            split at hb
            · exact absurd hb (by simp)
            · rename_i h3
              split at hb
              · exact absurd hb (by simp)
              · rename_i jr hr
                obtain ⟨hdb3, hjr⟩ : (saveJobPaid
                    (incrementProfile (decrementGuarded db c.ClientId j0.price).2
                      c.ContractorId j0.price).2 j0.id now) = db2 ∧ jr = j2 := by
                  simpa using hb
                obtain ⟨hja, hca, hpa⟩ := findUnpaidJobToPay_eq_some hf
                refine ⟨j0, c, p, hja, hca, hpa, le_of_not_lt h1, hdb3.symm, ?_, ?_⟩
                · intro hzero
                  exact h3 (by simp [hzero])
                · rw [← hdb3, hr, hjr]
  · rw [payJob, if_pos (by simp [ht])] at hok
    exact absurd hok (by simp)

/-- Conditional balance updates do not change a profile's id. -/
theorem id_dec (cid : Nat) (pr : ℚ) (q : Profile) :
    ((if q.id == cid && decide (pr ≤ q.balance)
      then { q with balance := q.balance - pr } else q) : Profile).id = q.id := by
  split <;> rfl

/-- Unconditional balance increments do not change a profile's id. -/
theorem id_inc (cid : Nat) (pr : ℚ) (q : Profile) :
    ((if q.id == cid then { q with balance := q.balance + pr } else q) : Profile).id
      = q.id := by
  split <;> rfl

/-- With pairwise distinct keys, `find?` by the key of a member returns that
member. -/
theorem find?_key_nodup {α : Type} (key : α → Nat) (l : List α)
    (hn : (l.map key).Nodup) (x : α) (hx : x ∈ l) :
    l.find? (fun y => key y == key x) = some x := by
  induction l with
  | nil => cases hx
  | cons a l ih =>
    rcases List.mem_cons.mp hx with rfl | hmem
    · exact List.find?_cons_of_pos (p := fun y => key y == key x) _ (by simp)
    · have hna : key a ∉ l.map key := (List.nodup_cons.mp (by simpa using hn)).1
      have hne : ¬ key a = key x := by
        intro he
        exact hna (he ▸ List.mem_map_of_mem key hmem)
      rw [List.find?_cons_of_neg (p := fun y => key y == key x) _ (by simpa using hne),
        ih (List.nodup_cons.mp (by simpa using hn)).2 hmem]

/-- Everything a successful `POST /jobs/:job_id/pay` does to the balances:
provided no contract names the same profile as client and contractor, the
client row loses the job's price and the contractor row gains it. -/
theorem payJob_balances {db : DB} {caller : Profile} {jid : Nat} {now : Int}
    {j : Job} {db' : DB}
    (hcc : ∀ c ∈ db.contracts, c.ClientId ≠ c.ContractorId)
    (hok : payJob db caller jid now = (.ok j, db')) :
    ∃ j0 c, j0 ∈ db.jobs ∧ c ∈ db.contracts ∧
      j0.id = jid ∧ j0.paid = false ∧ c.id = j0.ContractId ∧
      c.status = "in_progress" ∧ c.ClientId = caller.id ∧
      db'.jobs = db.jobs.map (fun x => if x.id == j0.id
        then { x with paid := true, paymentDate := some now } else x) ∧
      db'.jobs.find? (fun x => x.id == j0.id) = some j ∧
      (findProfile db' c.ClientId).map Profile.balance
        = (findProfile db c.ClientId).map (fun q => q.balance - j0.price) ∧
      (findProfile db' c.ContractorId).map Profile.balance
        = (findProfile db c.ContractorId).map (fun q => q.balance + j0.price) := by
  obtain ⟨ht, j0, c, p, hja, hca, hpa, hbal, hdb, hn2, hrel⟩ := payJob_ok_core hok
  have hj0mem := List.mem_of_find?_eq_some hja
  have hj0pred := List.find?_some hja
  have hcmem := List.mem_of_find?_eq_some hca
  have hcpred := List.find?_some hca
  have hppred := List.find?_some hpa
  obtain ⟨hjid, hjpaid⟩ : j0.id = jid ∧ j0.paid = false := by
    have := hj0pred
    simp only [paysFor, Bool.and_eq_true, beq_iff_eq] at this
    exact ⟨this.1.1, this.1.2⟩
  obtain ⟨hcid, hcst, hclid⟩ : c.id = j0.ContractId ∧ c.status = "in_progress" ∧
      c.ClientId = caller.id := by
    simp only [Bool.and_eq_true, beq_iff_eq] at hcpred
    exact ⟨hcpred.1.1, hcpred.1.2, hcpred.2⟩
  have hpid : p.id = caller.id := by simpa using hppred
  have hne : c.ClientId ≠ c.ContractorId := hcc c hcmem
  have hprof : db'.profiles = db.profiles.map (fun q =>
      (fun r => if r.id == c.ContractorId
        then { r with balance := r.balance + j0.price } else r)
      ((fun r => if r.id == c.ClientId && decide (j0.price ≤ r.balance)
        then { r with balance := r.balance - j0.price } else r) q)) := by
    rw [hdb, saveJobPaid_profiles, profiles_after_transfer]
  have hjobs : db'.jobs = db.jobs.map (fun x => if x.id == j0.id
      then { x with paid := true, paymentDate := some now } else x) := by
    rw [hdb]; rw [saveJobPaid, transfer_jobs]
  have hfind : ∀ t, findProfile db' t = (findProfile db t).map (fun q =>
      (fun r => if r.id == c.ContractorId
        then { r with balance := r.balance + j0.price } else r)
      ((fun r => if r.id == c.ClientId && decide (j0.price ≤ r.balance)
        then { r with balance := r.balance - j0.price } else r) q)) := by
    intro t
    rw [findProfile, findProfile, hprof,
      find?_key_map Profile.id _ _ (fun x => by rw [id_inc, id_dec]) t]
  refine ⟨j0, c, hj0mem, hcmem, hjid, hjpaid, hcid, hcst, hclid, hjobs, hrel, ?_, ?_⟩
  · -- client balance: found profile is `p`, guard holds, contractor update skips
    have hfp : findProfile db c.ClientId = some p := by rw [hclid]; exact hpa
    have hne2 : caller.id ≠ c.ContractorId := hclid ▸ hne
    rw [hfind, hfp]
    simp [hpid, hclid, hbal, hne2]
  · -- contractor balance: a row with the contractor id exists
    have hn2' : ((decrementGuarded db c.ClientId j0.price).2.profiles.filter
        (fun q => q.id == c.ContractorId)).length ≠ 0 := hn2
    have hx : ∃ x ∈ (decrementGuarded db c.ClientId j0.price).2.profiles,
        (x.id == c.ContractorId) = true := by
      have hnil : ((decrementGuarded db c.ClientId j0.price).2.profiles.filter
          (fun q => q.id == c.ContractorId)) ≠ [] := by
        intro hnil
        rw [hnil] at hn2'
        exact hn2' rfl
      obtain ⟨x, hx⟩ := List.exists_mem_of_ne_nil _ hnil
      exact ⟨x, (List.mem_filter.mp hx).1, (List.mem_filter.mp hx).2⟩
    obtain ⟨x, hxmem, hxid⟩ := hx
    obtain ⟨y, hymem, rfl⟩ : ∃ y ∈ db.profiles,
        (fun r => if r.id == c.ClientId && decide (j0.price ≤ r.balance)
          then { r with balance := r.balance - j0.price } else r) y = x := by
      simpa [decrementGuarded, List.mem_map] using hxmem
    have hyid : (y.id == c.ContractorId) = true := by
      rw [← id_dec c.ClientId j0.price y]; exact hxid
    obtain ⟨q, hq⟩ : ∃ q, findProfile db c.ContractorId = some q :=
      Option.isSome_iff_exists.mp (List.find?_isSome.mpr ⟨y, hymem, hyid⟩)
    have hqid : q.id = c.ContractorId := by simpa using List.find?_some hq
    have hne3 : c.ContractorId ≠ c.ClientId := hne.symm
    rw [hfind, hq]
    simp [hqid, hne3]

/-- A failed `POST /jobs/:job_id/pay` leaves the database untouched: the
thrown error rolls the transaction back and the route answers with the
original state. -/
theorem payJob_error_rollback (db : DB) (caller : Profile) (jid : Nat)
    (now : Int) (e : ErrObj) (db2 : DB)
    (h : payJob db caller jid now = (.error e, db2)) : db2 = db := by
  rw [payJob] at h
  split at h
  · exact ((Prod.mk.injEq _ _ _ _).mp h).2.symm
  · split at h
    · exact absurd ((Prod.mk.injEq _ _ _ _).mp h).1 (by simp)
    · exact ((Prod.mk.injEq _ _ _ _).mp h).2.symm

/-- A failed `POST /balances/deposit` leaves the database untouched. -/
theorem deposit_error_rollback (db : DB) (caller : Profile) (amount : ℚ)
    (e : ErrObj) (db2 : DB)
    (h : deposit db caller amount = (.error e, db2)) : db2 = db := by
  rw [deposit] at h
  split at h
  · exact ((Prod.mk.injEq _ _ _ _).mp h).2.symm
  · split at h
    · exact ((Prod.mk.injEq _ _ _ _).mp h).2.symm
    · simp only [] at h
      split at h
      · exact absurd ((Prod.mk.injEq _ _ _ _).mp h).1 (by simp)
      · exact ((Prod.mk.injEq _ _ _ _).mp h).2.symm

/-- After a successful payment of job `jid`, every row with that job id is
marked paid, so the "unpaid job" predicate matches no row of the new state. -/
theorem payJob_second_404 {db : DB} {caller : Profile} {jid : Nat} {now : Int}
    {j : Job} {db' : DB}
    (hcc : ∀ c ∈ db.contracts, c.ClientId ≠ c.ContractorId)
    (hok : payJob db caller jid now = (.ok j, db')) (now2 : Int) :
    payJob db' caller jid now2 = (.error ⟨404, "Job not found"⟩, db') := by
  obtain ⟨ht, _⟩ := payJob_ok_core hok
  obtain ⟨j0, c, _, _, hjid, _, _, _, _, hjobs, _, _, _⟩ := payJob_balances hcc hok
  have hnone : db'.jobs.find? (fun x => paysFor db' caller.id jid x) = none := by
    rw [List.find?_eq_none]
    intro x hx
    rw [hjobs] at hx
    obtain ⟨y, hy, rfl⟩ := List.mem_map.mp hx
    by_cases hyid : (y.id == j0.id) = true
    · rw [if_pos hyid]
      simp [paysFor]
    · rw [if_neg hyid]
      have : ¬ y.id = jid := by
        intro he
        exact hyid (by simp [he, hjid])
      simp [paysFor, this]
  rw [payJob, if_neg (by simp [ht]), payJobBody, findUnpaidJobToPay, hnone]

/-- C1: for every successful PayJob call by a client on a job with price p,
the client's balance after equals the balance before minus p, the
contractor's balance after equals the balance before plus p, and the job's
paid flag transitions from false to true exactly once (a second PayJob on
the same job fails with 404), with paymentDate set to the payment time. -/
theorem C1_payJob_settlement (db : DB) (caller : Profile) (jid : Nat)
    (now now2 : Int) (j : Job) (db' : DB)
    (hcc : ∀ c ∈ db.contracts, c.ClientId ≠ c.ContractorId)
    (hjn : (db.jobs.map Job.id).Nodup)
    (hok : payJob db caller jid now = (.ok j, db')) :
    j.id = jid ∧ j.paid = true ∧ j.paymentDate = some now ∧
    (∃ j0 ∈ db.jobs, j0.id = jid ∧ j0.paid = false ∧ j0.price = j.price ∧
      ∃ c ∈ db.contracts, c.id = j0.ContractId ∧ c.ClientId = caller.id ∧
        (findProfile db' c.ClientId).map Profile.balance
          = (findProfile db c.ClientId).map (fun q => q.balance - j.price) ∧
        (findProfile db' c.ContractorId).map Profile.balance
          = (findProfile db c.ContractorId).map (fun q => q.balance + j.price)) ∧
    payJob db' caller jid now2 = (.error ⟨404, "Job not found"⟩, db') := by
  obtain ⟨j0, c, hj0mem, hcmem, hjid, hjpaid, hcid, hcst, hclid, hjobs, hrel,
    hcli, hctr⟩ := payJob_balances hcc hok
  have hjf : j = { j0 with paid := true, paymentDate := some now } := by
    have h1 : db'.jobs.find? (fun x => x.id == j0.id)
        = (db.jobs.find? (fun x => x.id == j0.id)).map (fun x => if x.id == j0.id
          then { x with paid := true, paymentDate := some now } else x) := by
      rw [hjobs]
      exact find?_key_map Job.id _ _ (fun x => by split <;> rfl) j0.id
    rw [h1, find?_key_nodup Job.id db.jobs hjn j0 hj0mem] at hrel
    simpa using hrel.symm
  have hpr : j.price = j0.price := by simp [hjf]
  exact ⟨by simp [hjf, hjid], by simp [hjf], by simp [hjf],
    ⟨j0, hj0mem, hjid, hjpaid, hpr.symm, c, hcmem, hcid, hclid,
      by rw [hpr]; exact hcli, by rw [hpr]; exact hctr⟩,
    payJob_second_404 hcc hok now2⟩

/-- Fixture: a client with balance 100. -/
def exClient : Profile := ⟨1, "client", "Ada", "L", "", 100⟩

/-- Fixture: a contractor with balance 10. -/
def exContractor : Profile := ⟨2, "contractor", "Bob", "M", "dev", 10⟩

/-- Fixture: one in-progress contract and one unpaid job of price 50. -/
def exDb : DB :=
  ⟨[exClient, exContractor], [⟨1, "in_progress", 1, 2⟩], [⟨1, 50, false, none, 1⟩]⟩

/-- Fixture: `exDb` after job 1 is paid at time 7. -/
def exDbPaid : DB :=
  ⟨[⟨1, "client", "Ada", "L", "", 50⟩, ⟨2, "contractor", "Bob", "M", "dev", 60⟩],
   [⟨1, "in_progress", 1, 2⟩], [⟨1, 50, true, some 7, 1⟩]⟩

/-- Evaluation of the fixture payment: the route succeeds, moves 50 from the
client to the contractor and marks the job paid. -/
theorem exDb_pay_eval : payJob exDb exClient 1 7 =
    (.ok ⟨1, 50, true, some 7, 1⟩, exDbPaid) := by
  norm_num [payJob, payJobBody, findUnpaidJobToPay, paysFor, decrementGuarded,
    incrementProfile, saveJobPaid, exDb, exDbPaid, exClient, exContractor,
    List.find?]

/-- C1 witness: the settlement theorem applied to the fixture payment. -/
theorem C1_witness :
    payJob exDb exClient 1 7 = (.ok ⟨1, 50, true, some 7, 1⟩, exDbPaid) ∧
    (⟨1, 50, true, some 7, 1⟩ : Job).paid = true ∧
    (findProfile exDbPaid 1).map Profile.balance
      = (findProfile exDb 1).map (fun q => q.balance - 50) ∧
    payJob exDbPaid exClient 1 8 = (.error ⟨404, "Job not found"⟩, exDbPaid) :=
  ⟨exDb_pay_eval,
   (C1_payJob_settlement exDb exClient 1 7 8 _ _ (by decide) (by decide)
     exDb_pay_eval).2.1,
   by
    have h := (C1_payJob_settlement exDb exClient 1 7 8 _ _ (by decide) (by decide)
      exDb_pay_eval).2.2.2.1
    obtain ⟨j0, hj0, hjid, hjp, hpr, c, hc, hcid, hclid, hcli, hctr⟩ := h
    have hc1 : c = ⟨1, "in_progress", 1, 2⟩ := by
      have := hc
      simpa [exDb] using this
    have hcl : c.ClientId = 1 := by rw [hc1]
    rw [← hcl]
    exact hcli,
   (C1_payJob_settlement exDb exClient 1 7 8 _ _ (by decide) (by decide)
     exDb_pay_eval).2.2.2.2⟩

/-- C3: every failing PayJob (missing job, insufficient funds at the read
check or at the guarded decrement, or failing contractor increment) rolls
the whole transaction back, leaving the state unchanged; and a successful
one marks the job paid together with exactly the two balance movements. -/
theorem C3_payJob_atomic (db : DB) (caller : Profile) (jid : Nat) (now : Int)
    (hcc : ∀ c ∈ db.contracts, c.ClientId ≠ c.ContractorId) :
    (∀ e db2, payJob db caller jid now = (.error e, db2) → db2 = db) ∧
    (∀ j db2, payJob db caller jid now = (.ok j, db2) →
      ∃ j0 c, j0 ∈ db.jobs ∧ c ∈ db.contracts ∧ j0.id = jid ∧ j0.paid = false ∧
        c.id = j0.ContractId ∧ c.ClientId = caller.id ∧
        db2.jobs = db.jobs.map (fun x => if x.id == j0.id
          then { x with paid := true, paymentDate := some now } else x) ∧
        (findProfile db2 c.ClientId).map Profile.balance
          = (findProfile db c.ClientId).map (fun q => q.balance - j0.price) ∧
        (findProfile db2 c.ContractorId).map Profile.balance
          = (findProfile db c.ContractorId).map (fun q => q.balance + j0.price)) :=
  ⟨fun e db2 h => payJob_error_rollback db caller jid now e db2 h,
   fun j db2 h => by
    obtain ⟨j0, c, h1, h2, h3, h4, h5, _, h7, h8, _, h10, h11⟩ :=
      payJob_balances hcc h
    exact ⟨j0, c, h1, h2, h3, h4, h5, h7, h8, h10, h11⟩⟩

/-- C3 witness: paying a non-existent job on the fixture fails with 404 and
the rollback arm of the atomicity theorem yields the unchanged state. -/
theorem C3_witness :
    ∃ e db2, payJob exDb exClient 2 7 = (.error e, db2) ∧ db2 = exDb := by
  have heval : payJob exDb exClient 2 7 = (.error ⟨404, "Job not found"⟩, exDb) := by
    norm_num [payJob, payJobBody, findUnpaidJobToPay, paysFor, exDb, exClient,
      exContractor, List.find?_cons]
  exact ⟨_, _, heval, (C3_payJob_atomic exDb exClient 2 7 (by decide)).1 _ _ heval⟩

/-- The nested lookup returns no row exactly when no job row satisfies the
pay predicate (when one does, the joined contract and client rows exist). -/
theorem findUnpaidJobToPay_eq_none_iff (db : DB) (pid jid : Nat) :
    findUnpaidJobToPay db pid jid = none ↔
      db.jobs.find? (fun x => paysFor db pid jid x) = none := by
  constructor
  · intro h
    cases hf : db.jobs.find? (fun x => paysFor db pid jid x) with
    | none => rfl
    | some j0 =>
      have hpf := List.find?_some hf
      simp only [paysFor, Bool.and_eq_true, beq_iff_eq, List.any_eq_true] at hpf
      obtain ⟨-, c, hc, ⟨⟨hc1, hc2⟩, hc3⟩, p, hp, hp1⟩ := hpf
      have hcsome : (db.contracts.find? (fun c2 => c2.id == j0.ContractId &&
          c2.status == "in_progress" && c2.ClientId == pid)).isSome :=
        List.find?_isSome.mpr ⟨c, hc, by simp [hc1, hc2, hc3]⟩
      have hpsome : (db.profiles.find? (fun q => q.id == pid)).isSome :=
        List.find?_isSome.mpr ⟨p, hp, by simp [hp1]⟩
      rw [findUnpaidJobToPay, hf] at h
      simp only [] at h
      obtain ⟨c2, hc2'⟩ := Option.isSome_iff_exists.mp hcsome
      rw [hc2'] at h
      obtain ⟨p2, hp2'⟩ := Option.isSome_iff_exists.mp hpsome
      rw [hp2'] at h
      exact absurd h (by simp)
  · intro h
    rw [findUnpaidJobToPay, h]

/-- The transaction body reports 404 exactly when the lookup found no row. -/
theorem payJobBody_404_iff (db : DB) (pid jid : Nat) (now : Int) :
    payJobBody db pid jid now = .error ⟨404, "Job not found"⟩ ↔
      findUnpaidJobToPay db pid jid = none := by
  constructor
  · intro h
    cases hf : findUnpaidJobToPay db pid jid with
    | none => rfl
    | some t =>
      obtain ⟨j0, c, p⟩ := t
      rw [payJobBody, hf] at h
      simp only [] at h
      by_cases h1 : p.balance < j0.price
      · rw [if_pos h1] at h
        exact absurd h (by simp)
      · rw [if_neg h1] at h
        by_cases h2 : ((decrementGuarded db c.ClientId j0.price).1 == 0) = true
        · rw [if_pos h2] at h
          exact absurd h (by simp)
        · rw [if_neg h2] at h
          by_cases h3 : ((incrementProfile (decrementGuarded db c.ClientId
              j0.price).2 c.ContractorId j0.price).1 == 0) = true
          · rw [if_pos h3] at h
            exact absurd h (by simp)
          · rw [if_neg h3] at h
            split at h
            · exact absurd h (by simp)
            · exact absurd h (by simp)
  · intro h
    rw [payJobBody, h]

/-- A membership witness turns the pay predicate into its relational form. -/
theorem paysFor_iff (db : DB) (caller : Profile) (jid : Nat)
    (hmem : caller ∈ db.profiles) (x : Job) :
    paysFor db caller.id jid x = true ↔
      x.id = jid ∧ x.paid = false ∧
        ∃ c ∈ db.contracts, c.id = x.ContractId ∧ c.status = "in_progress" ∧
          c.ClientId = caller.id := by
  constructor
  · intro h
    simp only [paysFor, Bool.and_eq_true, beq_iff_eq, List.any_eq_true] at h
    obtain ⟨⟨h1, h2⟩, c, hc, ⟨⟨hc1, hc2⟩, hc3⟩, -⟩ := h
    exact ⟨h1, h2, c, hc, hc1, hc2, hc3⟩
  · rintro ⟨h1, h2, c, hc, hc1, hc2, hc3⟩
    simp only [paysFor, Bool.and_eq_true, beq_iff_eq, List.any_eq_true]
    exact ⟨⟨h1, h2⟩, c, hc, ⟨⟨hc1, hc2⟩, hc3⟩, caller, hmem, rfl⟩

/-- C5: PayJob fails with 403 Forbidden for every non-client caller; for a
client caller it fails with 404 NotFound exactly when no job with the given
id is unpaid, under an in-progress contract whose client is the caller; in
particular a second PayJob on a just-paid job fails with 404. -/
theorem C5_payJob_preconditions (db : DB) (caller : Profile) (jid : Nat)
    (now now2 : Int) (hmem : caller ∈ db.profiles) :
    (caller.type ≠ "client" →
      payJob db caller jid now
        = (.error ⟨403, "Only clients can pay for jobs"⟩, db)) ∧
    (caller.type = "client" →
      ((payJob db caller jid now).1 = .error ⟨404, "Job not found"⟩ ↔
        ¬ ∃ x ∈ db.jobs, x.id = jid ∧ x.paid = false ∧
          ∃ c ∈ db.contracts, c.id = x.ContractId ∧ c.status = "in_progress" ∧
            c.ClientId = caller.id)) ∧
    (∀ j db', (∀ c ∈ db.contracts, c.ClientId ≠ c.ContractorId) →
      payJob db caller jid now = (.ok j, db') →
      payJob db' caller jid now2 = (.error ⟨404, "Job not found"⟩, db')) := by
  refine ⟨fun ht => by rw [payJob, if_pos ht], fun ht => ?_,
    fun j db' hcc hok => payJob_second_404 hcc hok now2⟩
  have hbody : (payJob db caller jid now).1
      = .error ⟨404, "Job not found"⟩ ↔
      payJobBody db caller.id jid now = .error ⟨404, "Job not found"⟩ := by
    rw [payJob, if_neg (by simp [ht])]
    cases hb : payJobBody db caller.id jid now with
    | ok out =>
      obtain ⟨a, b⟩ := out
      simp
    | error e => simp
  rw [hbody, payJobBody_404_iff, findUnpaidJobToPay_eq_none_iff,
    List.find?_eq_none]
  constructor
  · rintro h ⟨x, hx, hxid, hxpaid, hc⟩
    exact h x hx ((paysFor_iff db caller jid hmem x).mpr ⟨hxid, hxpaid, hc⟩)
  · intro h x hx hpf
    exact h ⟨x, hx, (paysFor_iff db caller jid hmem x).mp hpf⟩

/-- C5 witness: on the fixture, a contractor caller is rejected with 403 and
a client caller asking for an absent job id gets the 404 outcome of the
precondition theorem. -/
theorem C5_witness :
    payJob exDb exContractor 1 7
      = (.error ⟨403, "Only clients can pay for jobs"⟩, exDb) ∧
    (payJob exDb exClient 2 7).1 = .error ⟨404, "Job not found"⟩ :=
  ⟨(C5_payJob_preconditions exDb exContractor 1 7 8 (by decide)).1 (by decide),
   ((C5_payJob_preconditions exDb exClient 2 7 8 (by decide)).2.1 (by decide)).mpr
     (by decide)⟩

/-- Inversion of a successful `POST /balances/deposit`: the caller is a
client, the limit check passed, and the new state is the increment applied
to the caller's row, which the reload returns. -/
theorem deposit_ok_core {db : DB} {caller : Profile} {amount : ℚ}
    {p : Profile} {db2 : DB}
    (h : deposit db caller amount = (.ok p, db2)) :
    caller.type = "client" ∧ amount ≤ exposure db caller.id / 4 ∧
    db2 = (incrementProfile db caller.id amount).2 ∧
    db2.profiles.find? (fun q => q.id == caller.id) = some p := by
  rw [deposit] at h
  split at h
  · exact absurd h (by simp)
  · rename_i ht
    split at h
    · exact absurd h (by simp)
    · rename_i hgt
      simp only [] at h
      split at h
      · rename_i q hq
        obtain ⟨h1, h2⟩ : (Except.ok q : Except ErrObj Profile) = .ok p ∧
            (incrementProfile db caller.id amount).2 = db2 := by simpa using h
        obtain rfl : q = p := by simpa using h1
        exact ⟨not_not.mp (by simpa using ht), not_lt.mp (by simpa using hgt),
          h2.symm, h2 ▸ hq⟩
      · exact absurd h (by simp)

/-- For a client whose profile row exists, the deposit succeeds exactly when
the amount is within a quarter of the exposure. -/
theorem deposit_ok_iff (db : DB) (caller : Profile) (amount : ℚ)
    (ht : caller.type = "client") (hmem : caller ∈ db.profiles) :
    (∃ p db2, deposit db caller amount = (.ok p, db2)) ↔
      amount ≤ exposure db caller.id / 4 := by
  constructor
  · rintro ⟨p, db2, h⟩
    exact (deposit_ok_core h).2.1
  · intro hle
    rw [deposit, if_neg (by simp [ht]), if_neg (by simpa using not_lt.mpr hle)]
    obtain ⟨q, hq⟩ : ∃ q, (incrementProfile db caller.id amount).2.profiles.find?
        (fun r => r.id == caller.id) = some q := by
      apply Option.isSome_iff_exists.mp
      apply List.find?_isSome.mpr
      refine ⟨(fun r => if r.id == caller.id
        then { r with balance := r.balance + amount } else r) caller, ?_, ?_⟩
      · exact List.mem_map_of_mem _ hmem
      · simp [id_inc]
    simp only []
    rw [hq]
    exact ⟨q, _, rfl⟩

/-- What a successful deposit does to the caller's row: the balance grows by
the amount, everything else is untouched. -/
theorem deposit_ok_spec {db : DB} {caller : Profile} {amount : ℚ}
    {p : Profile} {db2 : DB}
    (h : deposit db caller amount = (.ok p, db2)) :
    ∃ q, findProfile db caller.id = some q ∧
      findProfile db2 caller.id = some p ∧
      p = { q with balance := q.balance + amount } ∧
      db2.jobs = db.jobs ∧ db2.contracts = db.contracts := by
  obtain ⟨ht, hle, hdb2, hfind⟩ := deposit_ok_core h
  have hmap : db2.profiles = db.profiles.map (fun r => if r.id == caller.id
      then { r with balance := r.balance + amount } else r) := by
    rw [hdb2]
    rfl
  have hcomm : findProfile db2 caller.id
      = (findProfile db caller.id).map (fun r => if r.id == caller.id
        then { r with balance := r.balance + amount } else r) := by
    rw [findProfile, findProfile, hmap,
      find?_key_map Profile.id _ _ (fun x => id_inc _ _ _) caller.id]
  have hp2 : findProfile db2 caller.id = some p := hfind
  rw [hcomm] at hp2
  obtain ⟨q, hq, hgq⟩ := Option.map_eq_some'.mp hp2
  have hqid : (q.id == caller.id) = true := by
    have hq2 : db.profiles.find? (fun r => r.id == caller.id) = some q := hq
    exact List.find?_some (p := fun r : Profile => r.id == caller.id) hq2
  refine ⟨q, hq, hfind, ?_, by rw [hdb2]; rfl, by rw [hdb2]; rfl⟩
  rw [← hgq, if_pos hqid]

/-- C4: for a client caller, Deposit(amount) succeeds exactly when
amount ≤ exposure/4 (so the boundary amount succeeds); any larger amount is
rejected with the 409 limit error; with zero exposure every positive amount
is rejected; and a success increments the caller's balance by the amount. -/
theorem C4_deposit_limit (db : DB) (caller : Profile) (amount : ℚ)
    (ht : caller.type = "client") (hmem : caller ∈ db.profiles) :
    ((∃ p db2, deposit db caller amount = (.ok p, db2)) ↔
      amount ≤ exposure db caller.id / 4) ∧
    (amount > exposure db caller.id / 4 →
      deposit db caller amount = (.error ⟨409,
        "You can only deposit up to 25% of total unpaid jobs amount"⟩, db)) ∧
    (exposure db caller.id = 0 → 0 < amount →
      ∀ p db2, deposit db caller amount ≠ (.ok p, db2)) ∧
    (∀ p db2, deposit db caller amount = (.ok p, db2) →
      (findProfile db2 caller.id).map Profile.balance
        = (findProfile db caller.id).map (fun q => q.balance + amount)) := by
  refine ⟨deposit_ok_iff db caller amount ht hmem, ?_, ?_, ?_⟩
  · intro hgt
    rw [deposit, if_neg (by simp [ht]), if_pos hgt]
  · intro hexp hpos p db2 h
    have hle := (deposit_ok_core h).2.1
    rw [hexp] at hle
    norm_num at hle
    exact absurd (lt_of_lt_of_le hpos hle) (lt_irrefl 0)
  · intro p db2 h
    obtain ⟨q, hq, hp2, hpq, -, -⟩ := deposit_ok_spec h
    rw [hq, hp2, hpq]
    rfl

/-- Evaluation of the fixture exposure: one unpaid job of price 50 under an
in-progress contract of client 1. -/
theorem exDb_exposure_eval : exposure exDb exClient.id = 50 := by
  norm_num [exposure, exposureRows, exDb, exClient, exContractor]

/-- C4 witness: on the fixture (exposure 50), the boundary deposit 25/2
succeeds and 13 is rejected with the limit error. -/
theorem C4_witness :
    (∃ p db2, deposit exDb exClient (25/2) = (.ok p, db2)) ∧
    deposit exDb exClient 13 = (.error ⟨409,
      "You can only deposit up to 25% of total unpaid jobs amount"⟩, exDb) :=
  ⟨((C4_deposit_limit exDb exClient (25/2) (by decide) (by decide)).1).mpr
    (by rw [exDb_exposure_eval]; norm_num),
   (C4_deposit_limit exDb exClient 13 (by decide) (by decide)).2.1
    (by rw [exDb_exposure_eval]; norm_num)⟩

/-- C6 counterexample: a deposit of -5 (not a positive amount) by a client
is accepted, returns 200 with the decremented balance, and changes the
caller's balance, instead of failing with any InvalidArgument error. -/
theorem C6_counterexample :
    deposit exDb exClient (-5) = (.ok ⟨1, "client", "Ada", "L", "", 95⟩,
      ⟨[⟨1, "client", "Ada", "L", "", 95⟩, exContractor],
       [⟨1, "in_progress", 1, 2⟩], [⟨1, 50, false, none, 1⟩]⟩) := by
  norm_num [deposit, exposure, exposureRows, incrementProfile, exDb, exClient,
    exContractor, List.find?_cons]

/-- C6 amended: role mismatch fails with 403; but the route performs no
validation of the amount: for a client caller any amount at or under a
quarter of the exposure — including zero and negative amounts — succeeds and
moves the balance by exactly that amount.  (No InvalidArgument outcome
exists in the code.) -/
theorem C6_deposit_no_validation (db : DB) (caller : Profile) (amount : ℚ) :
    (caller.type ≠ "client" →
      deposit db caller amount
        = (.error ⟨403, "Only clients can deposit money"⟩, db)) ∧
    (caller.type = "client" → caller ∈ db.profiles →
      amount ≤ exposure db caller.id / 4 →
      ∃ p db2, deposit db caller amount = (.ok p, db2) ∧
        (findProfile db2 caller.id).map Profile.balance
          = (findProfile db caller.id).map (fun q => q.balance + amount)) := by
  refine ⟨fun ht => by rw [deposit, if_pos ht], fun ht hmem hle => ?_⟩
  obtain ⟨p, db2, h⟩ := (deposit_ok_iff db caller amount ht hmem).mpr hle
  obtain ⟨q, hq, hp2, hpq, -, -⟩ := deposit_ok_spec h
  exact ⟨p, db2, h, by rw [hq, hp2, hpq]; rfl⟩

/-- C6 witness: the amended theorem applied to the fixture — a contractor
caller is rejected with 403, and the client's zero-amount deposit succeeds. -/
theorem C6_witness :
    deposit exDb exContractor 5
      = (.error ⟨403, "Only clients can deposit money"⟩, exDb) ∧
    ∃ p db2, deposit exDb exClient 0 = (.ok p, db2) ∧
      (findProfile db2 1).map Profile.balance
        = (findProfile exDb 1).map (fun q => q.balance + 0) :=
  ⟨(C6_deposit_no_validation exDb exContractor 5).1 (by decide),
   (C6_deposit_no_validation exDb exClient 0).2 (by decide) (by decide)
     (by rw [exDb_exposure_eval]; norm_num)⟩

/-- C10: the code enforces no lower bound on the deposit amount — for a
client caller and any negative amount, the deposit succeeds whenever the
exposure is non-negative, and the caller's balance is incremented by the
negative amount, i.e. it strictly decreases. -/
theorem C10_deposit_negative (db : DB) (caller : Profile) (amount : ℚ)
    (ht : caller.type = "client") (hmem : caller ∈ db.profiles)
    (hneg : amount < 0) (hexp : 0 ≤ exposure db caller.id) :
    ∃ p db2, deposit db caller amount = (.ok p, db2) ∧
      (findProfile db2 caller.id).map Profile.balance
        = (findProfile db caller.id).map (fun q => q.balance + amount) ∧
      ∀ q, findProfile db caller.id = some q → p.balance < q.balance := by
  have hle : amount ≤ exposure db caller.id / 4 :=
    le_trans (le_of_lt hneg) (by positivity)
  obtain ⟨p, db2, h⟩ := (deposit_ok_iff db caller amount ht hmem).mpr hle
  obtain ⟨q, hq, hp2, hpq, -, -⟩ := deposit_ok_spec h
  refine ⟨p, db2, h, by rw [hq, hp2, hpq]; rfl, ?_⟩
  intro q2 hq2
  obtain rfl : q = q2 := by rw [hq] at hq2; simpa using hq2
  rw [hpq]
  show q.balance + amount < q.balance
  linarith

/-- C10 witness: the negative-deposit theorem applied to the fixture. -/
theorem C10_witness :
    ∃ p db2, deposit exDb exClient (-5) = (.ok p, db2) ∧
      (findProfile db2 exClient.id).map Profile.balance
        = (findProfile exDb exClient.id).map (fun q => q.balance + (-5)) ∧
      ∀ q, findProfile exDb exClient.id = some q → p.balance < q.balance :=
  C10_deposit_negative exDb exClient (-5) (by decide) (by decide) (by norm_num)
    (by rw [exDb_exposure_eval]; norm_num)

/-- The invariant of the data model: all committed balances and all job
prices are non-negative. -/
def StoreInv (db : DB) : Prop :=
  (∀ p ∈ db.profiles, 0 ≤ p.balance) ∧ (∀ j ∈ db.jobs, 0 ≤ j.price)

/-- One committed mutation of the store: a PayJob call with any outcome, or
a Deposit call with a non-negative amount and any outcome. -/
inductive OpStep : DB → DB → Prop
  | pay (caller : Profile) (jid : Nat) (now : Int) (r : Except ErrObj Job)
      {db db' : DB} : payJob db caller jid now = (r, db') → OpStep db db'
  | dep (caller : Profile) (amount : ℚ) (r : Except ErrObj Profile)
      {db db' : DB} : 0 ≤ amount → deposit db caller amount = (r, db') →
      OpStep db db'

/-- Single-step preservation: each committed PayJob (the guarded decrement
keeps the payer at or above zero, the increment adds a non-negative price)
and each non-negative Deposit preserves the invariant. -/
theorem opStep_inv {db db' : DB} (hInv : StoreInv db) (hs : OpStep db db') :
    StoreInv db' := by
  obtain ⟨hbal, hpr⟩ := hInv
  cases hs with
  | pay caller jid now r hp =>
    cases r with
    | error e =>
      rw [payJob_error_rollback _ _ _ _ _ _ hp]
      exact ⟨hbal, hpr⟩
    | ok j =>
      obtain ⟨ht, j0, c, p, hja, hca, hpa, hbalp, hdb, hn2, hrel⟩ :=
        payJob_ok_core hp
      have hj0mem := List.mem_of_find?_eq_some hja
      have hprice : 0 ≤ j0.price := hpr j0 hj0mem
      constructor
      · intro q hq
        rw [hdb, saveJobPaid_profiles, profiles_after_transfer] at hq
        obtain ⟨y, hy, rfl⟩ := List.mem_map.mp hq
        have hinner : 0 ≤ ((fun r => if r.id == c.ClientId &&
            decide (j0.price ≤ r.balance)
            then { r with balance := r.balance - j0.price } else r) y).balance := by
          show 0 ≤ (if y.id == c.ClientId && decide (j0.price ≤ y.balance)
            then { y with balance := y.balance - j0.price } else y).balance
          by_cases h1 : (y.id == c.ClientId && decide (j0.price ≤ y.balance)) = true
          · rw [if_pos h1]
            have h1' : j0.price ≤ y.balance :=
              of_decide_eq_true ((Bool.and_eq_true _ _).mp h1).2
            show 0 ≤ y.balance - j0.price
            linarith
          · rw [if_neg h1]
            exact hbal y hy
        set z := (fun r : Profile => if r.id == c.ClientId &&
            decide (j0.price ≤ r.balance)
            then { r with balance := r.balance - j0.price } else r) y with hzdef
        show 0 ≤ (if z.id == c.ContractorId
          then { z with balance := z.balance + j0.price } else z).balance
        by_cases h2 : (z.id == c.ContractorId) = true
        · rw [if_pos h2]
          show 0 ≤ z.balance + j0.price
          linarith [hinner]
        · rw [if_neg h2]
          exact hinner
      · intro x hx
        have hjobs : db'.jobs = db.jobs.map (fun y => if y.id == j0.id
            then { y with paid := true, paymentDate := some now } else y) := by
          rw [hdb]
          rw [saveJobPaid, transfer_jobs]
        rw [hjobs] at hx
        obtain ⟨y, hy, rfl⟩ := List.mem_map.mp hx
        show 0 ≤ (if y.id == j0.id
          then { y with paid := true, paymentDate := some now } else y).price
        by_cases h1 : (y.id == j0.id) = true
        · rw [if_pos h1]
          exact hpr y hy
        · rw [if_neg h1]
          exact hpr y hy
  | dep caller amount r hge hd =>
    cases r with
    | error e =>
      rw [deposit_error_rollback _ _ _ _ _ hd]
      exact ⟨hbal, hpr⟩
    | ok p =>
      obtain ⟨ht, hle, hdb2, hfind⟩ := deposit_ok_core hd
      constructor
      · intro q hq
        rw [hdb2] at hq
        obtain ⟨y, hy, rfl⟩ := List.mem_map.mp hq
        show 0 ≤ (if y.id == caller.id
          then { y with balance := y.balance + amount } else y).balance
        by_cases h1 : (y.id == caller.id) = true
        · rw [if_pos h1]
          show 0 ≤ y.balance + amount
          have := hbal y hy
          linarith
        · rw [if_neg h1]
          exact hbal y hy
      · intro x hx
        rw [hdb2] at hx
        exact hpr x hx

/-- Fixture for the invariant counterexample: a client with balance 0 and an
unpaid job of price 8 (exposure 8, deposit limit 2). -/
def c2Client : Profile := ⟨1, "client", "Eve", "N", "", 0⟩

/-- Fixture store for the invariant counterexample. -/
def c2Db : DB := ⟨[c2Client], [⟨1, "in_progress", 1, 2⟩], [⟨1, 8, false, none, 1⟩]⟩

/-- C2 counterexample: from a state where every balance is non-negative, the
committed Deposit of the negative amount -5 (accepted, since -5 is below the
25% limit) drives the client's balance to -5 < 0. -/
theorem C2_counterexample :
    (c2Db.profiles.all (fun p => decide (0 ≤ p.balance))) = true ∧
    deposit c2Db c2Client (-5) = (.ok ⟨1, "client", "Eve", "N", "", -5⟩,
      ⟨[⟨1, "client", "Eve", "N", "", -5⟩], [⟨1, "in_progress", 1, 2⟩],
       [⟨1, 8, false, none, 1⟩]⟩) ∧
    ((⟨[⟨1, "client", "Eve", "N", "", -5⟩], [⟨1, "in_progress", 1, 2⟩],
       [⟨1, 8, false, none, 1⟩]⟩ : DB).profiles.any
      (fun p => decide (p.balance < 0))) = true := by
  refine ⟨by norm_num [c2Db, c2Client], ?_, by norm_num⟩
  norm_num [deposit, exposure, exposureRows, incrementProfile, c2Db, c2Client,
    List.find?_cons]

/-- C2 amended: from a state where all balances and all job prices are
non-negative, every state reachable through committed PayJob calls and
committed Deposit calls with non-negative amounts keeps every balance
non-negative (the original claim fails for negative deposit amounts, which
the code accepts). -/
theorem C2_nonneg_invariant (db0 db : DB) (h0 : StoreInv db0)
    (h : Relation.ReflTransGen OpStep db0 db) :
    ∀ p ∈ db.profiles, 0 ≤ p.balance := by
  suffices hs : StoreInv db from hs.1
  induction h with
  | refl => exact h0
  | tail _ hstep ih => exact opStep_inv ih hstep

/-- C2 witness: the fixture store satisfies the invariant and after the
committed fixture payment every balance is still non-negative. -/
theorem C2_witness :
    StoreInv exDb ∧ ∀ p ∈ exDbPaid.profiles, 0 ≤ p.balance :=
  have h0 : StoreInv exDb := by
    constructor <;> norm_num [exDb, exClient, exContractor]
  ⟨h0, C2_nonneg_invariant exDb exDbPaid h0
    (Relation.ReflTransGen.single (OpStep.pay exClient 1 7 _ exDb_pay_eval))⟩

/-- The `ORDER BY SUM DESC LIMIT 1` selection is empty only on an empty
group list. -/
theorem pickMax_eq_none_iff (l : List (String × ℚ)) :
    pickMax l = none ↔ l = [] := by
  cases l with
  | nil => simp [pickMax]
  | cons x xs =>
    rw [pickMax]
    cases pickMax xs <;> simp

/-- The selected group is one of the groups and its sum is maximal. -/
theorem pickMax_spec (l : List (String × ℚ)) (m : String × ℚ)
    (h : pickMax l = some m) : m ∈ l ∧ ∀ z ∈ l, z.2 ≤ m.2 := by
  induction l generalizing m with
  | nil => simp [pickMax] at h
  | cons x xs ih =>
    rw [pickMax] at h
    cases hx : pickMax xs with
    | none =>
      rw [hx] at h
      obtain rfl : x = m := by simpa using h
      have hnil : xs = [] := (pickMax_eq_none_iff xs).mp hx
      subst hnil
      exact ⟨by simp, by simp⟩
    | some y =>
      rw [hx] at h
      obtain ⟨hy, hmax⟩ := ih y hx
      by_cases hc : x.2 < y.2
      · obtain rfl : y = m := by simpa [if_pos hc] using h
        exact ⟨List.mem_cons_of_mem x hy, by
          intro z hz
          rcases List.mem_cons.mp hz with rfl | hz2
          · exact le_of_lt hc
          · exact hmax z hz2⟩
      · obtain rfl : x = m := by simpa [if_neg hc] using h
        exact ⟨List.mem_cons_self x xs, by
          intro z hz
          rcases List.mem_cons.mp hz with rfl | hz2
          · exact le_refl _
          · exact le_trans (hmax z hz2) (not_lt.mp hc)⟩

/-- The grouped sums are empty exactly when the join produced no row. -/
theorem professionTotals_eq_nil_iff (db : DB) (s e : Option Int) :
    professionTotals db s e = [] ↔ contractorRows db s e = [] := by
  rw [professionTotals]
  simp only [List.map_eq_nil_iff, List.dedup_eq_nil]

/-- C7 amended: BestProfession returns (only) a profession whose summed
price over the paid jobs in the inclusive date range is maximal among all
professions (the route's `attributes` omit the total, so no totalPaid field
is returned), and responds 404 exactly when no paid job matches the range. -/
theorem C7_best_profession (db : DB) (s e : Option Int) :
    (∀ pr, bestProfession db s e = some pr →
      ∃ g ∈ professionTotals db s e, g.1 = pr ∧
        ∀ g2 ∈ professionTotals db s e, g2.2 ≤ g.2) ∧
    (bestProfession db s e = none ↔ contractorRows db s e = []) ∧
    bestProfessionResponse db s e
      = (bestProfession db s e).map (fun pr => [("profession", pr)]) := by
  refine ⟨?_, ?_, rfl⟩
  · intro pr hpr
    rw [bestProfession] at hpr
    cases hm : pickMax (professionTotals db s e) with
    | none => rw [hm] at hpr; exact absurd hpr (by simp)
    | some m =>
      rw [hm] at hpr
      obtain ⟨hmem, hmax⟩ := pickMax_spec _ m hm
      exact ⟨m, hmem, by simpa using hpr, hmax⟩
  · rw [bestProfession, Option.map_eq_none', pickMax_eq_none_iff,
      professionTotals_eq_nil_iff]

/-- Fixture for the aggregation routes: one client, one contractor with
profession "dev", one in-progress contract, one job of price 150 paid at
time 5. -/
def c7Db : DB :=
  ⟨[⟨1, "client", "Al", "B", "", 0⟩, ⟨2, "contractor", "Bob", "M", "dev", 0⟩],
   [⟨1, "in_progress", 1, 2⟩],
   [⟨1, 150, true, some 5, 1⟩]⟩

/-- C7 counterexample: on the fixture the best-profession response carries
exactly the single field `profession` — there is no `totalPaid` field in the
serialized result, contradicting the claimed result shape. -/
theorem C7_counterexample :
    bestProfessionResponse c7Db none none = some [("profession", "dev")] ∧
    (([("profession", "dev")] : List (String × String)).all
      (fun f => f.1 != "totalPaid")) = true := by
  refine ⟨?_, by decide⟩
  norm_num [bestProfessionResponse, bestProfession, professionTotals,
    contractorRows, inRange, pickMax, c7Db]

/-- Helper evaluation: the fixture's best profession is "dev". -/
theorem c7_best_eval : bestProfession c7Db none none = some "dev" := by
  norm_num [bestProfession, professionTotals, contractorRows, inRange,
    pickMax, c7Db]

/-- C7 witness: the maximality statement instantiated on the fixture. -/
theorem C7_witness :
    ∃ g ∈ professionTotals c7Db none none, g.1 = "dev" ∧
      ∀ g2 ∈ professionTotals c7Db none none, g2.2 ≤ g.2 :=
  (C7_best_profession c7Db none none).1 "dev" c7_best_eval

/-- Fixture for best-clients: client X (id 10) with a paid job of 200 and
client Y (id 11) with a paid job of 300. -/
def c8Db : DB :=
  ⟨[⟨10, "client", "Xa", "Xb", "", 0⟩, ⟨11, "client", "Ya", "Yb", "", 0⟩,
    ⟨2, "contractor", "Bob", "M", "dev", 0⟩],
   [⟨1, "in_progress", 10, 2⟩, ⟨2, "in_progress", 11, 2⟩],
   [⟨1, 200, true, some 3, 1⟩, ⟨2, 300, true, some 4, 2⟩]⟩

/-- C8: the claim says BestClients is sorted descending by total paid and
that limit 1 over paid jobs {X: 200, Y: 300} returns exactly Y with 300.
The route's ORDER BY resolves to the constant `Job`.`paid` boolean column,
so the groups keep ascending client-id order: at the failing input the code
returns client X (id 10) with total 200, and with the default limit it
returns [X, Y] — ascending by id, not descending by total. -/
theorem C8_code_divergence :
    bestClients c8Db none none 1 = [⟨10, "Xa Xb", 200⟩] ∧
    bestClientsRoute c8Db none none none
      = .ok [⟨10, "Xa Xb", 200⟩, ⟨11, "Ya Yb", 300⟩] := by
  constructor
  · norm_num [bestClients, clientTotals, clientRows, inRange, groupOrder,
      insertByClientId, orderByPaidColumnDesc, applyLimit, c8Db,
      List.filterMap_cons, List.find?_cons, List.filter_cons]
    decide
  · norm_num [bestClientsRoute, bestClients, clientTotals, clientRows,
      inRange, groupOrder, insertByClientId, orderByPaidColumnDesc,
      applyLimit, c8Db, List.filterMap_cons, List.find?_cons,
      List.filter_cons]
    decide

/-- C9 counterexample: a limit of 0 — not a positive integer — is not
rejected with any InvalidArgument error: the route succeeds and returns the
empty list. -/
theorem C9_counterexample :
    bestClientsRoute c8Db none none (some 0) = .ok [] := by
  norm_num [bestClientsRoute, bestClients, applyLimit]

/-- C9 amended: the route never validates the limit — every call succeeds
(the only 404 branch is unreachable because `findAll` returns an array), and
a non-positive parsed limit is passed straight to the truncation, e.g.
limit 0 yields a 200 response with an empty list. -/
theorem C9_limit_not_validated (db : DB) (s e : Option Int)
    (limq : Option Int) :
    (∃ l, bestClientsRoute db s e limq = .ok l) ∧
    bestClientsRoute db s e (some 0) = .ok [] :=
  ⟨⟨_, rfl⟩, by norm_num [bestClientsRoute, bestClients, applyLimit]⟩
